import Mathlib

/-!
Verification of the Modbus RTU slave engine (V2.0 multi-instance variant,
`modbus_slave.c` / `modbus_slave.h`).

The development shallowly embeds the frame-processing core:
`Modbus_CRC16` (both the shift branch and the table branch over
`CRC16_TABLE`), `Modbus_SendResponse`, `Modbus_SendException`, and
`Modbus_Process` with its per-function-code dispatch.

Modelling conventions:
* Machine bytes are `Nat`; every load through a `uint8` lvalue is masked
  with `% 256` (helper `byte` for the receive buffer, `coilByteAt` /
  `discreteByteAt` for the bit regions) and every load through a `uint16`
  lvalue with `% 65536` (`holdingAt`, `inputAt`).  Arithmetic such as
  `start_addr + quantity > count` is performed by the C code after integer
  promotion to `int`, so plain `Nat` arithmetic is faithful.
* The receive buffer is a total function `Nat → Nat` together with the
  received length `rx_len`, mirroring the C pointer + length pair: the C
  code may read buffer cells beyond `rx_len` (stale bytes), which the
  function model represents as arbitrary values.
* The register file regions are total functions plus a null flag and a
  count, mirroring the pointer / count pairs of `Modbus_DataMap_t`.
* The host callbacks are modelled as pure functions returning `Bool`:
  the engine only passes them the decoded values and branches on the
  returned boolean.
* `Modbus_Process` is modelled from the point where the ping-pong
  snapshot has been taken (lines 216-221 of the C source): it receives
  the snapshot buffer and length and returns the updated handle together
  with the emitted response bytes (`[]` when the engine stays silent).
-/

/-- The 256-entry CRC16-Modbus lookup table (`CRC16_TABLE` in the C source). -/
def CRC16_TABLE : List Nat := [
  0x0000, 0xC0C1, 0xC181, 0x0140, 0xC301, 0x03C0, 0x0280, 0xC241,
  0xC601, 0x06C0, 0x0780, 0xC741, 0x0500, 0xC5C1, 0xC481, 0x0440,
  0xCC01, 0x0CC0, 0x0D80, 0xCD41, 0x0F00, 0xCFC1, 0xCE81, 0x0E40,
  0x0A00, 0xCAC1, 0xCB81, 0x0B40, 0xC901, 0x09C0, 0x0880, 0xC841,
  0xD801, 0x18C0, 0x1980, 0xD941, 0x1B00, 0xDBC1, 0xDA81, 0x1A40,
  0x1E00, 0xDEC1, 0xDF81, 0x1F40, 0xDD01, 0x1DC0, 0x1C80, 0xDC41,
  0x1400, 0xD4C1, 0xD581, 0x1540, 0xD701, 0x17C0, 0x1680, 0xD641,
  0xD201, 0x12C0, 0x1380, 0xD341, 0x1100, 0xD1C1, 0xD081, 0x1040,
  0xF001, 0x30C0, 0x3180, 0xF141, 0x3300, 0xF3C1, 0xF281, 0x3240,
  0x3600, 0xF6C1, 0xF781, 0x3740, 0xF501, 0x35C0, 0x3480, 0xF441,
  0x3C00, 0xFCC1, 0xFD81, 0x3D40, 0xFF01, 0x3FC0, 0x3E80, 0xFE41,
  0xFA01, 0x3AC0, 0x3B80, 0xFB41, 0x3900, 0xF9C1, 0xF881, 0x3840,
  0x2800, 0xE8C1, 0xE981, 0x2940, 0xEB01, 0x2BC0, 0x2A80, 0xEA41,
  0xEE01, 0x2EC0, 0x2F80, 0xEF41, 0x2D00, 0xEDC1, 0xEC81, 0x2C40,
  0xE401, 0x24C0, 0x2580, 0xE541, 0x2700, 0xE7C1, 0xE681, 0x2640,
  0x2200, 0xE2C1, 0xE381, 0x2340, 0xE101, 0x21C0, 0x2080, 0xE041,
  0xA001, 0x60C0, 0x6180, 0xA141, 0x6300, 0xA3C1, 0xA281, 0x6240,
  0x6600, 0xA6C1, 0xA781, 0x6740, 0xA501, 0x65C0, 0x6480, 0xA441,
  0x6C00, 0xACC1, 0xAD81, 0x6D40, 0xAF01, 0x6FC0, 0x6E80, 0xAE41,
  0xAA01, 0x6AC0, 0x6B80, 0xAB41, 0x6900, 0xA9C1, 0xA881, 0x6840,
  0x7800, 0xB8C1, 0xB981, 0x7940, 0xBB01, 0x7BC0, 0x7A80, 0xBA41,
  0xBE01, 0x7EC0, 0x7F80, 0xBF41, 0x7D00, 0xBDC1, 0xBC81, 0x7C40,
  0xB401, 0x74C0, 0x7580, 0xB541, 0x7700, 0xB7C1, 0xB681, 0x7640,
  0x7200, 0xB2C1, 0xB381, 0x7340, 0xB101, 0x71C0, 0x7080, 0xB041,
  0x5000, 0x90C1, 0x9181, 0x5140, 0x9301, 0x53C0, 0x5280, 0x9241,
  0x9601, 0x56C0, 0x5780, 0x9741, 0x5500, 0x95C1, 0x9481, 0x5440,
  0x9C01, 0x5CC0, 0x5D80, 0x9D41, 0x5F00, 0x9FC1, 0x9E81, 0x5E40,
  0x5A00, 0x9AC1, 0x9B81, 0x5B40, 0x9901, 0x59C0, 0x5880, 0x9841,
  0x8801, 0x48C0, 0x4980, 0x8941, 0x4B00, 0x8BC1, 0x8A81, 0x4A40,
  0x4E00, 0x8EC1, 0x8F81, 0x4F40, 0x8D01, 0x4DC0, 0x4C80, 0x8C41,
  0x4400, 0x84C1, 0x8581, 0x4540, 0x8701, 0x47C0, 0x4680, 0x8641,
  0x8201, 0x42C0, 0x4380, 0x8341, 0x4100, 0x81C1, 0x8081, 0x4040]

/-- One round of the shift-based CRC16 inner loop:
`if (crc & 1) crc = (crc >> 1) ^ 0xA001; else crc >>= 1;`. -/
def crcRound (crc : Nat) : Nat :=
  if crc &&& 1 = 1 then (crc >>> 1) ^^^ 0xA001 else crc >>> 1

/-- Eight rounds of the shift-based inner loop (the `for (j = 0; j < 8; j++)`
loop of `Modbus_CRC16`). -/
def crcRounds8 (crc : Nat) : Nat :=
  crcRound (crcRound (crcRound (crcRound (crcRound (crcRound (crcRound (crcRound crc)))))))

/-- One octet of the shift branch of `Modbus_CRC16`:
`crc ^= buffer[i]` (a `uint8` load, hence the mask) then eight rounds. -/
def crcUpdateShift (crc b : Nat) : Nat :=
  crcRounds8 (crc ^^^ (b &&& 0xFF))

/-- One octet of the table branch of `Modbus_CRC16`:
`crc = (crc >> 8) ^ CRC16_TABLE[(crc ^ buffer[i]) & 0xFF]`. -/
def crcUpdateTable (crc b : Nat) : Nat :=
  (crc >>> 8) ^^^ CRC16_TABLE.getD ((crc ^^^ b) &&& 0xFF) 0

/-- `Modbus_CRC16`: initial value 0xFFFF, then per-octet update using the
table branch when `use_crc_table` is set, the shift branch otherwise. -/
def Modbus_CRC16 (use_crc_table : Bool) (buffer : List Nat) : Nat :=
  if use_crc_table then
    buffer.foldl crcUpdateTable 0xFFFF
  else
    buffer.foldl crcUpdateShift 0xFFFF

/-- `Modbus_DataMap_t`: the four borrowed register-file regions.  Each region
is a pointer (modelled as a total function plus a null flag) and a count. -/
structure Modbus_DataMap where
  coils : Nat → Nat
  coils_null : Bool
  coil_count : Nat
  discrete_inputs : Nat → Nat
  discrete_null : Bool
  discrete_count : Nat
  holding_regs : Nat → Nat
  holding_null : Bool
  holding_reg_count : Nat
  input_regs : Nat → Nat
  input_null : Bool
  input_reg_count : Nat

/-- The part of `ModbusHandle_t` that the frame-processing core reads or
writes: slave address, CRC-branch selector, transmit-buffer capacity, the
data map, and the two optional host callbacks (modelled as pure functions;
`write_cb` receives function code, start address and quantity,
`custom_config_cb` receives parameter address and value). -/
structure ModbusHandle where
  slave_addr : Nat
  use_crc_table : Bool
  tx_buf_size : Nat
  data_map : Modbus_DataMap
  write_cb : Option (Nat → Nat → Nat → Bool)
  custom_config_cb : Option (Nat → Nat → Bool)

/-- A `uint8` load from the receive buffer: `rx_buf[i]`. -/
def byte (rx : Nat → Nat) (i : Nat) : Nat := rx i % 256

/-- A big-endian 16-bit field of the request: `(rx_buf[i] << 8) | rx_buf[i+1]`. -/
def be16 (rx : Nat → Nat) (i : Nat) : Nat := (byte rx i) <<< 8 ||| byte rx (i + 1)

/-- A `uint8` load from the coil region: `coils[i]`. -/
def coilByteAt (dm : Modbus_DataMap) (i : Nat) : Nat := dm.coils i % 256

/-- A `uint8` load from the discrete-input region. -/
def discreteByteAt (dm : Modbus_DataMap) (i : Nat) : Nat := dm.discrete_inputs i % 256

/-- A `uint16` load from the holding-register region. -/
def holdingAt (dm : Modbus_DataMap) (i : Nat) : Nat := dm.holding_regs i % 65536

/-- A `uint16` load from the input-register region. -/
def inputAt (dm : Modbus_DataMap) (i : Nat) : Nat := dm.input_regs i % 65536

/-- The test `coils[idx / 8] & (1 << (idx % 8))` used both by Read Coils and
by the write paths: whether coil bit `idx` of a bit-packed byte region is set. -/
def bitGet (region : Nat → Nat) (idx : Nat) : Bool :=
  (region (idx / 8) % 256) &&& (1 <<< (idx % 8)) ≠ 0

/-- `coils[idx / 8] |= (1 << (idx % 8))` on a bit-packed byte region. -/
def setBit (region : Nat → Nat) (idx : Nat) : Nat → Nat :=
  fun j => if j = idx / 8 then (region (idx / 8) % 256) ||| (1 <<< (idx % 8)) else region j

/-- `coils[idx / 8] &= ~(1 << (idx % 8))` on a bit-packed byte region
(the store truncates the complemented mask to `uint8`). -/
def clearBit (region : Nat → Nat) (idx : Nat) : Nat → Nat :=
  fun j => if j = idx / 8 then (region (idx / 8) % 256) &&& (0xFF ^^^ (1 <<< (idx % 8))) else region j

/-- `Modbus_SendResponse`: append the CRC (low byte first) to the composed
`len`-byte transmit prefix and emit it, or emit nothing when the transmit
buffer cannot hold `len + 2` octets. -/
def Modbus_SendResponse (h : ModbusHandle) (tx : List Nat) : List Nat :=
  if h.tx_buf_size < tx.length + 2 then []
  else
    tx ++ [Modbus_CRC16 h.use_crc_table tx &&& 0xFF,
           (Modbus_CRC16 h.use_crc_table tx >>> 8) &&& 0xFF]

/-- `Modbus_SendException`: a three-byte head
`[slave_addr][func | 0x80][exception_code]` passed to `Modbus_SendResponse`. -/
def Modbus_SendException (h : ModbusHandle) (func_code exception_code : Nat) : List Nat :=
  Modbus_SendResponse h [h.slave_addr, func_code ||| 0x80, exception_code]

/-- The response head shared by the echo-style branches (0x05, 0x06, 0x0F,
0x10, 0x64): the six request head bytes with `tx_buf[0]` replaced by the
instance's real slave address. -/
def echoHead (h : ModbusHandle) (rx : Nat → Nat) : List Nat :=
  [h.slave_addr, byte rx 1, byte rx 2, byte rx 3, byte rx 4, byte rx 5]

/-- The bit-packing loop of the Read Coils / Read Discrete Inputs branches:
starting from `byte_count` zeroed payload octets, for each `i < quantity`
with source bit `i` set, OR `1 << (i % 8)` into payload octet `i / 8`. -/
def packBits (bits : Nat → Bool) (quantity byte_count : Nat) : List Nat :=
  (List.range quantity).foldl
    (fun acc i =>
      if bits i then acc.set (i / 8) (acc.getD (i / 8) 0 ||| (1 <<< (i % 8))) else acc)
    (List.replicate byte_count 0)

/-- The read loop of the Read Holding / Read Input branches: each register is
serialized big-endian (`(reg >> 8) & 0xFF` then `reg & 0xFF`). -/
def regPayload (reg : Nat → Nat) (start_addr quantity : Nat) : List Nat :=
  (List.range quantity).foldl
    (fun acc i => acc ++ [(reg (start_addr + i) >>> 8) &&& 0xFF, reg (start_addr + i) &&& 0xFF])
    []

/-- The `MB_FUNC_READ_COILS` (0x01) branch of `Modbus_Process`. -/
def processReadCoils (h : ModbusHandle) (rx : Nat → Nat) (func : Nat) :
    ModbusHandle × List Nat :=
  let dm := h.data_map
  if dm.coils_null = true ∨ dm.coil_count = 0 then
    (h, Modbus_SendException h func 0x01)
  else
    let start_addr := be16 rx 2
    let quantity := be16 rx 4
    if quantity < 1 ∨ quantity > 2000 then
      (h, Modbus_SendException h func 0x03)
    else if start_addr + quantity > dm.coil_count then
      (h, Modbus_SendException h func 0x02)
    else
      let byte_count := (quantity + 7) / 8
      (h, Modbus_SendResponse h
        ([h.slave_addr, func, byte_count] ++
          packBits (fun i => bitGet dm.coils (start_addr + i)) quantity byte_count))

/-- The `MB_FUNC_READ_DISCRETE` (0x02) branch of `Modbus_Process`. -/
def processReadDiscrete (h : ModbusHandle) (rx : Nat → Nat) (func : Nat) :
    ModbusHandle × List Nat :=
  let dm := h.data_map
  if dm.discrete_null = true ∨ dm.discrete_count = 0 then
    (h, Modbus_SendException h func 0x01)
  else
    let start_addr := be16 rx 2
    let quantity := be16 rx 4
    if quantity < 1 ∨ quantity > 2000 then
      (h, Modbus_SendException h func 0x03)
    else if start_addr + quantity > dm.discrete_count then
      (h, Modbus_SendException h func 0x02)
    else
      let byte_count := (quantity + 7) / 8
      (h, Modbus_SendResponse h
        ([h.slave_addr, func, byte_count] ++
          packBits (fun i => bitGet dm.discrete_inputs (start_addr + i)) quantity byte_count))

/-- The pre-write callback check
`if (hmodbus->write_cb != NULL) { if (!hmodbus->write_cb(...)) ... }`:
the write proceeds when no callback is installed or the callback approves. -/
def writeAllowed (write_cb : Option (Nat → Nat → Nat → Bool))
    (func start_addr quantity : Nat) : Bool :=
  match write_cb with
  | none => true
  | some cb => cb func start_addr quantity

/-- The `MB_FUNC_WRITE_SINGLE_COIL` (0x05) branch of `Modbus_Process`. -/
def processWriteSingleCoil (h : ModbusHandle) (rx : Nat → Nat) (func : Nat) :
    ModbusHandle × List Nat :=
  let dm := h.data_map
  if dm.coils_null = true ∨ dm.coil_count = 0 then
    (h, Modbus_SendException h func 0x01)
  else
    let start_addr := be16 rx 2
    let val := be16 rx 4
    if start_addr ≥ dm.coil_count then
      (h, Modbus_SendException h func 0x02)
    else if writeAllowed h.write_cb func start_addr 1 = false then
      (h, Modbus_SendException h func 0x04)
    else
      let coils' :=
        if val = 0xFF00 then setBit dm.coils start_addr
        else if val = 0x0000 then clearBit dm.coils start_addr
        else dm.coils
      ({ h with data_map := { dm with coils := coils' } },
       Modbus_SendResponse h (echoHead h rx))

/-- The `MB_FUNC_WRITE_MULTI_COILS` (0x0F) branch of `Modbus_Process`.
Note: the C code reads `byte_count = rx_buf[6]` but never uses it, and
performs no validation of `quantity` beyond the range check. -/
def processWriteMultiCoils (h : ModbusHandle) (rx : Nat → Nat) (func : Nat) :
    ModbusHandle × List Nat :=
  let dm := h.data_map
  if dm.coils_null = true ∨ dm.coil_count = 0 then
    (h, Modbus_SendException h func 0x01)
  else
    let start_addr := be16 rx 2
    let quantity := be16 rx 4
    if start_addr + quantity > dm.coil_count then
      (h, Modbus_SendException h func 0x02)
    else if writeAllowed h.write_cb func start_addr quantity = false then
      (h, Modbus_SendException h func 0x04)
    else
      let coils' :=
        (List.range quantity).foldl
          (fun c i =>
            if (byte rx (7 + i / 8) >>> (i % 8)) &&& 0x01 ≠ 0 then
              setBit c (start_addr + i)
            else
              clearBit c (start_addr + i))
          dm.coils
      ({ h with data_map := { dm with coils := coils' } },
       Modbus_SendResponse h (echoHead h rx))

/-- The `MB_FUNC_READ_HOLDING` (0x03) branch of `Modbus_Process`. -/
def processReadHolding (h : ModbusHandle) (rx : Nat → Nat) (func : Nat) :
    ModbusHandle × List Nat :=
  let dm := h.data_map
  if dm.holding_null = true ∨ dm.holding_reg_count = 0 then
    (h, Modbus_SendException h func 0x01)
  else
    let start_addr := be16 rx 2
    let quantity := be16 rx 4
    if quantity < 1 ∨ quantity > 125 then
      (h, Modbus_SendException h func 0x03)
    else if start_addr + quantity > dm.holding_reg_count then
      (h, Modbus_SendException h func 0x02)
    else
      (h, Modbus_SendResponse h
        ([h.slave_addr, func, quantity * 2] ++ regPayload (holdingAt dm) start_addr quantity))

/-- The `MB_FUNC_WRITE_SINGLE_REG` (0x06) branch of `Modbus_Process`. -/
def processWriteSingleReg (h : ModbusHandle) (rx : Nat → Nat) (func : Nat) :
    ModbusHandle × List Nat :=
  let dm := h.data_map
  if dm.holding_null = true ∨ dm.holding_reg_count = 0 then
    (h, Modbus_SendException h func 0x01)
  else
    let start_addr := be16 rx 2
    let val := be16 rx 4
    if start_addr ≥ dm.holding_reg_count then
      (h, Modbus_SendException h func 0x02)
    else if writeAllowed h.write_cb func start_addr 1 = false then
      (h, Modbus_SendException h func 0x04)
    else
      ({ h with data_map :=
          { dm with holding_regs := fun j => if j = start_addr then val else dm.holding_regs j } },
       Modbus_SendResponse h (echoHead h rx))

/-- The `MB_FUNC_WRITE_MULTI_REGS` (0x10) branch of `Modbus_Process`.
Note: as in the C code there is no validation of `quantity` beyond the
range check. -/
def processWriteMultiRegs (h : ModbusHandle) (rx : Nat → Nat) (func : Nat) :
    ModbusHandle × List Nat :=
  let dm := h.data_map
  if dm.holding_null = true ∨ dm.holding_reg_count = 0 then
    (h, Modbus_SendException h func 0x01)
  else
    let start_addr := be16 rx 2
    let quantity := be16 rx 4
    if start_addr + quantity > dm.holding_reg_count then
      (h, Modbus_SendException h func 0x02)
    else if writeAllowed h.write_cb func start_addr quantity = false then
      (h, Modbus_SendException h func 0x04)
    else
      let holding' :=
        (List.range quantity).foldl
          (fun hr i => fun j =>
            if j = start_addr + i then (byte rx (7 + i * 2)) <<< 8 ||| byte rx (8 + i * 2)
            else hr j)
          dm.holding_regs
      ({ h with data_map := { dm with holding_regs := holding' } },
       Modbus_SendResponse h (echoHead h rx))

/-- The `MB_FUNC_READ_INPUT` (0x04) branch of `Modbus_Process`. -/
def processReadInput (h : ModbusHandle) (rx : Nat → Nat) (func : Nat) :
    ModbusHandle × List Nat :=
  let dm := h.data_map
  if dm.input_null = true ∨ dm.input_reg_count = 0 then
    (h, Modbus_SendException h func 0x01)
  else
    let start_addr := be16 rx 2
    let quantity := be16 rx 4
    if quantity < 1 ∨ quantity > 125 then
      (h, Modbus_SendException h func 0x03)
    else if start_addr + quantity > dm.input_reg_count then
      (h, Modbus_SendException h func 0x02)
    else
      (h, Modbus_SendResponse h
        ([h.slave_addr, func, quantity * 2] ++ regPayload (inputAt dm) start_addr quantity))

/-- The `MB_FUNC_CUSTOM_CONFIG` (0x64) branch of `Modbus_Process`. -/
def processCustomConfig (h : ModbusHandle) (rx : Nat → Nat) (rx_len : Nat) (func : Nat) :
    ModbusHandle × List Nat :=
  if rx_len ≠ 8 then
    (h, Modbus_SendException h func 0x03)
  else
    let param_addr := be16 rx 2
    let param_val := be16 rx 4
    match h.custom_config_cb with
    | none => (h, Modbus_SendException h func 0x01)
    | some cb =>
      if cb param_addr param_val then
        (h, Modbus_SendResponse h (echoHead h rx))
      else
        (h, Modbus_SendException h func 0x03)

/-- The function-code `switch` of `Modbus_Process` (`func_code = rx_buf[1]`). -/
def modbusDispatch (h : ModbusHandle) (rx : Nat → Nat) (rx_len : Nat) :
    ModbusHandle × List Nat :=
  let func := byte rx 1
  if func = 0x01 then processReadCoils h rx func
  else if func = 0x05 then processWriteSingleCoil h rx func
  else if func = 0x0F then processWriteMultiCoils h rx func
  else if func = 0x02 then processReadDiscrete h rx func
  else if func = 0x03 then processReadHolding h rx func
  else if func = 0x06 then processWriteSingleReg h rx func
  else if func = 0x10 then processWriteMultiRegs h rx func
  else if func = 0x04 then processReadInput h rx func
  else if func = 0x64 then processCustomConfig h rx rx_len func
  else (h, Modbus_SendException h func 0x01)

/-- The trailing CRC of the request, read low byte first:
`(rx_buf[rx_len - 1] << 8) | rx_buf[rx_len - 2]`. -/
def receivedCrc (rx : Nat → Nat) (rx_len : Nat) : Nat :=
  (byte rx (rx_len - 1)) <<< 8 ||| byte rx (rx_len - 2)

/-- The octets the CRC check runs over: `rx_buf[0 .. rx_len - 3]`. -/
def frameData (rx : Nat → Nat) (rx_len : Nat) : List Nat :=
  (List.range (rx_len - 2)).map rx

/-- `Modbus_CRC16(hmodbus, rx_buf, rx_len - 2)` as called by `Modbus_Process`. -/
def calculatedCrc (h : ModbusHandle) (rx : Nat → Nat) (rx_len : Nat) : Nat :=
  Modbus_CRC16 h.use_crc_table (frameData rx rx_len)

/-- `Modbus_Process` from the snapshot point: minimum-length check, address
filter (own address or 0xFF), CRC check, then the function-code dispatch.
Returns the updated handle and the emitted response octets (`[]` when the
frame is silently dropped). -/
def Modbus_Process (h : ModbusHandle) (rx : Nat → Nat) (rx_len : Nat) :
    ModbusHandle × List Nat :=
  if rx_len < 4 then (h, [])
  else if byte rx 0 ≠ h.slave_addr ∧ byte rx 0 ≠ 0xFF then (h, [])
  else if receivedCrc rx rx_len ≠ calculatedCrc h rx rx_len then (h, [])
  else modbusDispatch h rx rx_len

/-- Transport validity: the three checks a frame must pass before dispatch
(length, address filter, CRC). -/
def transportOk (h : ModbusHandle) (rx : Nat → Nat) (rx_len : Nat) : Prop :=
  4 ≤ rx_len ∧ (byte rx 0 = h.slave_addr ∨ byte rx 0 = 0xFF) ∧
    receivedCrc rx rx_len = calculatedCrc h rx rx_len

instance (h : ModbusHandle) (rx : Nat → Nat) (rx_len : Nat) :
    Decidable (transportOk h rx rx_len) := by
  unfold transportOk; infer_instance

/-! ### CRC equivalence: the table branch agrees with the shift branch -/

theorem shiftRight_xor_distrib (a b n : Nat) :
    (a ^^^ b) >>> n = (a >>> n) ^^^ (b >>> n) := by
  apply Nat.eq_of_testBit_eq
  intro i
  simp [Nat.testBit_shiftRight, Nat.testBit_xor]

theorem crcRound_closed (x : Nat) :
    crcRound x = (x >>> 1) ^^^ (if x &&& 1 = 1 then 40961 else 0) := by
  unfold crcRound
  split
  · rfl
  · rw [Nat.xor_zero]

theorem crcRound_xor (a b : Nat) : crcRound (a ^^^ b) = crcRound a ^^^ crcRound b := by
  have ha : a &&& 1 = 0 ∨ a &&& 1 = 1 := by
    rw [Nat.and_one_is_mod]; omega
  have hb : b &&& 1 = 0 ∨ b &&& 1 = 1 := by
    rw [Nat.and_one_is_mod]; omega
  rw [crcRound_closed, crcRound_closed, crcRound_closed,
      Nat.and_xor_distrib_right, shiftRight_xor_distrib]
  rcases ha with ha | ha <;> rcases hb with hb | hb <;> rw [ha, hb]
  · rw [if_neg (by decide : ¬ ((0 : Nat) ^^^ 0 = 1)),
        if_neg (by decide : ¬ ((0 : Nat) = 1))]
    simp [Nat.xor_zero]
  · rw [if_pos (by decide : ((0 : Nat) ^^^ 1 = 1)),
        if_neg (by decide : ¬ ((0 : Nat) = 1)), if_pos rfl]
    simp [Nat.xor_zero, Nat.xor_assoc]
  · rw [if_pos (by decide : ((1 : Nat) ^^^ 0 = 1)),
        if_neg (by decide : ¬ ((0 : Nat) = 1)), if_pos rfl]
    rw [Nat.xor_zero, Nat.xor_assoc, Nat.xor_assoc, Nat.xor_comm (b >>> 1) 40961]
  · rw [if_neg (by decide : ¬ ((1 : Nat) ^^^ 1 = 1)), if_pos rfl]
    rw [Nat.xor_zero, Nat.xor_comm (b >>> 1) 40961, Nat.xor_assoc,
        ← Nat.xor_assoc 40961 40961 (b >>> 1), Nat.xor_self, Nat.zero_xor]

theorem crcRounds8_xor (a b : Nat) :
    crcRounds8 (a ^^^ b) = crcRounds8 a ^^^ crcRounds8 b := by
  unfold crcRounds8
  rw [crcRound_xor, crcRound_xor, crcRound_xor, crcRound_xor, crcRound_xor,
      crcRound_xor, crcRound_xor, crcRound_xor]

theorem crcRound_shiftLeft_succ (x k : Nat) : crcRound (x <<< (k + 1)) = x <<< k := by
  unfold crcRound
  rw [Nat.shiftLeft_succ, Nat.and_one_is_mod, Nat.mul_mod_right]
  simp only [if_neg (by omega : ¬ (0 : Nat) = 1)]
  rw [Nat.shiftRight_eq_div_pow, pow_one, Nat.mul_div_cancel_left _ (by omega : 0 < 2)]

theorem crcRounds8_shiftLeft_eight (x : Nat) : crcRounds8 (x <<< 8) = x := by
  unfold crcRounds8
  rw [show (8 : Nat) = 7 + 1 from rfl, crcRound_shiftLeft_succ,
      show (7 : Nat) = 6 + 1 from rfl, crcRound_shiftLeft_succ,
      show (6 : Nat) = 5 + 1 from rfl, crcRound_shiftLeft_succ,
      show (5 : Nat) = 4 + 1 from rfl, crcRound_shiftLeft_succ,
      show (4 : Nat) = 3 + 1 from rfl, crcRound_shiftLeft_succ,
      show (3 : Nat) = 2 + 1 from rfl, crcRound_shiftLeft_succ,
      show (2 : Nat) = 1 + 1 from rfl, crcRound_shiftLeft_succ,
      show (1 : Nat) = 0 + 1 from rfl, crcRound_shiftLeft_succ,
      Nat.shiftLeft_zero]

set_option maxRecDepth 4096 in
/-- Every table entry is the shift algorithm run on its index from CRC 0. -/
theorem crc16_table_entries : ∀ i < 256, CRC16_TABLE.getD i 0 = crcRounds8 i := by decide

theorem hi_lo_decomp (x : Nat) : ((x >>> 8) <<< 8) ^^^ (x &&& 255) = x := by
  apply Nat.eq_of_testBit_eq
  intro i
  rw [show (255 : Nat) = 2 ^ 8 - 1 by norm_num]
  simp only [Nat.testBit_xor, Nat.testBit_shiftLeft, Nat.testBit_shiftRight,
    Nat.testBit_and, Nat.testBit_two_pow_sub_one]
  by_cases h : 8 ≤ i
  · simp only [decide_eq_true h, Bool.true_and, show 8 + (i - 8) = i by omega,
      decide_eq_false (by omega : ¬ i < 8), Bool.and_false, Bool.xor_false]
  · simp only [decide_eq_false h, Bool.false_and, Bool.false_xor,
      decide_eq_true (by omega : i < 8), Bool.and_true]

theorem crcRounds8_eq_table_step (x : Nat) :
    crcRounds8 x = (x >>> 8) ^^^ CRC16_TABLE.getD (x &&& 255) 0 := by
  have hlo : x &&& 255 < 256 := Nat.lt_of_le_of_lt Nat.and_le_right (by norm_num)
  calc crcRounds8 x
      = crcRounds8 (((x >>> 8) <<< 8) ^^^ (x &&& 255)) := by rw [hi_lo_decomp]
    _ = crcRounds8 ((x >>> 8) <<< 8) ^^^ crcRounds8 (x &&& 255) := crcRounds8_xor _ _
    _ = (x >>> 8) ^^^ CRC16_TABLE.getD (x &&& 255) 0 := by
        rw [crcRounds8_shiftLeft_eight, crc16_table_entries _ hlo]

/-- The two per-octet update functions agree on every CRC state and octet. -/
theorem crcUpdate_table_eq_shift (crc b : Nat) :
    crcUpdateTable crc b = crcUpdateShift crc b := by
  unfold crcUpdateTable crcUpdateShift
  rw [crcRounds8_eq_table_step]
  have h1 : (crc ^^^ (b &&& 255)) >>> 8 = crc >>> 8 := by
    rw [shiftRight_xor_distrib]
    have : (b &&& 255) >>> 8 = 0 := by
      rw [Nat.shiftRight_eq_div_pow]
      exact Nat.div_eq_of_lt (Nat.lt_of_le_of_lt Nat.and_le_right (by norm_num))
    rw [this, Nat.xor_zero]
  have h2 : (crc ^^^ (b &&& 255)) &&& 255 = (crc ^^^ b) &&& 255 := by
    rw [Nat.and_xor_distrib_right, Nat.and_xor_distrib_right, Nat.and_assoc]
    norm_num
  rw [h1, h2]

/-- The two branches of `Modbus_CRC16` compute the same function. -/
theorem crc16_branches_agree (buffer : List Nat) :
    Modbus_CRC16 true buffer = Modbus_CRC16 false buffer := by
  have hfun : crcUpdateTable = crcUpdateShift := by
    funext crc b
    exact crcUpdate_table_eq_shift crc b
  unfold Modbus_CRC16
  rw [hfun]
  simp

theorem modbusCRC16_eq_shift (u : Bool) (buffer : List Nat) :
    Modbus_CRC16 u buffer = Modbus_CRC16 false buffer := by
  cases u
  · rfl
  · exact crc16_branches_agree buffer

/-! ### CRC bound -/

theorem crcRound_lt (crc : Nat) (h : crc < 65536) : crcRound crc < 65536 := by
  unfold crcRound
  have h1 : crc >>> 1 < 65536 := by
    rw [Nat.shiftRight_eq_div_pow]
    omega
  split
  · have : (65536 : Nat) = 2 ^ 16 := by norm_num
    rw [this] at h1 ⊢
    exact Nat.xor_lt_two_pow h1 (by norm_num)
  · exact h1

theorem crcRounds8_lt (crc : Nat) (h : crc < 65536) : crcRounds8 crc < 65536 := by
  unfold crcRounds8
  exact crcRound_lt _ (crcRound_lt _ (crcRound_lt _ (crcRound_lt _ (crcRound_lt _
    (crcRound_lt _ (crcRound_lt _ (crcRound_lt _ h)))))))

theorem crcUpdateShift_lt (crc b : Nat) (h : crc < 65536) :
    crcUpdateShift crc b < 65536 := by
  unfold crcUpdateShift
  apply crcRounds8_lt
  have hb : b &&& 255 < 65536 :=
    Nat.lt_of_le_of_lt Nat.and_le_right (by norm_num)
  have : (65536 : Nat) = 2 ^ 16 := by norm_num
  rw [this] at h hb ⊢
  exact Nat.xor_lt_two_pow h hb

theorem crc_foldl_shift_lt (l : List Nat) (crc : Nat) (h : crc < 65536) :
    l.foldl crcUpdateShift crc < 65536 := by
  induction l generalizing crc with
  | nil => exact h
  | cons x xs ih => exact ih _ (crcUpdateShift_lt crc x h)

/-- The CRC the engine computes always fits in 16 bits. -/
theorem modbusCRC16_lt (u : Bool) (buffer : List Nat) :
    Modbus_CRC16 u buffer < 65536 := by
  rw [modbusCRC16_eq_shift]
  unfold Modbus_CRC16
  simp only [Bool.false_eq_true, if_false]
  exact crc_foldl_shift_lt buffer 0xFFFF (by norm_num)

/-! ### Transport-stage behaviour of `Modbus_Process` -/

theorem modbusProcess_of_invalid (h : ModbusHandle) (rx : Nat → Nat) (rx_len : Nat)
    (hinv : ¬ transportOk h rx rx_len) : Modbus_Process h rx rx_len = (h, []) := by
  unfold Modbus_Process
  unfold transportOk at hinv
  push_neg at hinv
  by_cases h1 : rx_len < 4
  · rw [if_pos h1]
  · rw [if_neg h1]
    by_cases h2 : byte rx 0 ≠ h.slave_addr ∧ byte rx 0 ≠ 0xFF
    · rw [if_pos h2]
    · rw [if_neg h2]
      push_neg at h2
      have h4 : 4 ≤ rx_len := by omega
      have haddr : byte rx 0 = h.slave_addr ∨ byte rx 0 = 0xFF := by
        by_cases hA : byte rx 0 = h.slave_addr
        · exact Or.inl hA
        · exact Or.inr (h2 hA)
      have hcrc := hinv h4 haddr
      rw [if_pos hcrc]

theorem modbusProcess_of_valid (h : ModbusHandle) (rx : Nat → Nat) (rx_len : Nat)
    (hv : transportOk h rx rx_len) :
    Modbus_Process h rx rx_len = modbusDispatch h rx rx_len := by
  obtain ⟨h4, haddr, hcrc⟩ := hv
  unfold Modbus_Process
  rw [if_neg (by omega), if_neg (by
    intro hcon
    rcases haddr with hA | hA
    · exact hcon.1 hA
    · exact hcon.2 hA), if_neg (by
    intro hcon
    exact hcon hcrc)]

/-! ### Shape of emitted responses -/

theorem sendResponse_eq (h : ModbusHandle) (tx : List Nat)
    (hsize : tx.length + 2 ≤ h.tx_buf_size) :
    Modbus_SendResponse h tx =
      tx ++ [Modbus_CRC16 h.use_crc_table tx &&& 0xFF,
             (Modbus_CRC16 h.use_crc_table tx >>> 8) &&& 0xFF] := by
  unfold Modbus_SendResponse
  rw [if_neg (by omega)]

theorem sendResponse_length (h : ModbusHandle) (tx : List Nat)
    (hsize : tx.length + 2 ≤ h.tx_buf_size) :
    (Modbus_SendResponse h tx).length = tx.length + 2 := by
  rw [sendResponse_eq h tx hsize]
  simp

theorem sendResponse_getD_lt (h : ModbusHandle) (tx : List Nat)
    (hsize : tx.length + 2 ≤ h.tx_buf_size) (i : Nat) (hi : i < tx.length) :
    (Modbus_SendResponse h tx).getD i 0 = tx.getD i 0 := by
  rw [sendResponse_eq h tx hsize]
  rw [List.getD_eq_getElem?_getD, List.getD_eq_getElem?_getD,
      List.getElem?_append_left hi]

theorem sendException_eq (h : ModbusHandle) (func exc : Nat)
    (hsize : 5 ≤ h.tx_buf_size) :
    Modbus_SendException h func exc =
      [h.slave_addr, func ||| 0x80, exc] ++
      [Modbus_CRC16 h.use_crc_table [h.slave_addr, func ||| 0x80, exc] &&& 0xFF,
       (Modbus_CRC16 h.use_crc_table [h.slave_addr, func ||| 0x80, exc] >>> 8) &&& 0xFF] := by
  unfold Modbus_SendException
  exact sendResponse_eq h _ (by simpa using hsize)

theorem sendException_length (h : ModbusHandle) (func exc : Nat)
    (hsize : 5 ≤ h.tx_buf_size) :
    (Modbus_SendException h func exc).length = 5 := by
  rw [sendException_eq h func exc hsize]
  simp

/-! ### The bit-packing loop of the read-bits branches -/

theorem packBits_length (bits : Nat → Bool) (qty bc : Nat) :
    (packBits bits qty bc).length = bc := by
  unfold packBits
  induction qty with
  | zero => simp
  | succ n ih =>
    rw [List.range_succ, List.foldl_append, List.foldl_cons, List.foldl_nil]
    split
    · rw [List.length_set]
      exact ih
    · exact ih

theorem packBits_testBit (bits : Nat → Bool) (qty bc j k : Nat)
    (hj : j < bc) (hk : k < 8) :
    ((packBits bits qty bc).getD j 0).testBit k =
      (decide (8 * j + k < qty) && bits (8 * j + k)) := by
  induction qty with
  | zero =>
    unfold packBits
    simp only [List.range_zero, List.foldl_nil]
    rw [List.getD_eq_getElem?_getD, List.getElem?_replicate, if_pos (by simpa using hj)]
    simp
  | succ n ih =>
    have hlen : (packBits bits n bc).length = bc := packBits_length bits n bc
    have hstep : packBits bits (n + 1) bc =
        (if bits n then
          (packBits bits n bc).set (n / 8)
            ((packBits bits n bc).getD (n / 8) 0 ||| (1 <<< (n % 8)))
        else packBits bits n bc) := by
      unfold packBits
      rw [List.range_succ, List.foldl_append, List.foldl_cons, List.foldl_nil]
    rw [hstep]
    by_cases hbn : bits n
    · rw [if_pos hbn]
      by_cases hje : j = n / 8
      · subst hje
        rw [List.getD_eq_getElem?_getD,
            List.getElem?_set_self (by rw [hlen]; exact hj)]
        simp only [Option.getD_some]
        rw [Nat.testBit_or]
        by_cases hke : k = n % 8
        · subst hke
          have hn : 8 * (n / 8) + n % 8 = n := by omega
          rw [Nat.one_shiftLeft, Nat.testBit_two_pow_self, Bool.or_true, hn]
          simp [hbn, Nat.lt_succ_self]
        · have hne : 8 * (n / 8) + k ≠ n := by omega
          rw [Nat.one_shiftLeft, Nat.testBit_two_pow,
              decide_eq_false (by omega : ¬ n % 8 = k), Bool.or_false, ih,
              show decide (8 * (n / 8) + k < n) = decide (8 * (n / 8) + k < n + 1) from
                decide_eq_decide.mpr (by omega)]
      · have hne : 8 * j + k ≠ n := by omega
        rw [List.getD_eq_getElem?_getD, List.getElem?_set_ne (fun hc => hje hc.symm),
            ← List.getD_eq_getElem?_getD, ih,
            show decide (8 * j + k < n) = decide (8 * j + k < n + 1) from
              decide_eq_decide.mpr (by omega)]
    · rw [if_neg hbn, ih]
      by_cases he : 8 * j + k = n
      · rw [he]
        have hb' : bits n = false := by simpa using hbn
        simp [hb']
      · rw [show decide (8 * j + k < n) = decide (8 * j + k < n + 1) from
          decide_eq_decide.mpr (by omega)]

/-! ### The register-read serialization loop -/

theorem regPayload_foldl_length (reg : Nat → Nat) (start_addr : Nat) :
    ∀ (q : Nat) (acc : List Nat),
      (List.foldl
        (fun acc i => acc ++ [(reg (start_addr + i) >>> 8) &&& 0xFF, reg (start_addr + i) &&& 0xFF])
        acc (List.range q)).length = acc.length + 2 * q := by
  intro q
  induction q with
  | zero => intro acc; simp
  | succ n ih =>
    intro acc
    rw [List.range_succ, List.foldl_append, List.foldl_cons, List.foldl_nil,
        List.length_append, ih]
    simp
    omega

theorem regPayload_length (reg : Nat → Nat) (start_addr quantity : Nat) :
    (regPayload reg start_addr quantity).length = 2 * quantity := by
  unfold regPayload
  rw [regPayload_foldl_length]
  simp

/-! ### Every dispatched frame yields either an exception or a normal response -/

theorem hilo_or_reassemble (crc : Nat) (hc : crc < 65536) :
    ((crc >>> 8) &&& 255) <<< 8 ||| (crc &&& 255) = crc := by
  have h8 : (crc >>> 8) &&& 255 = crc >>> 8 := by
    rw [show (255 : Nat) = 2 ^ 8 - 1 by norm_num]
    exact Nat.and_pow_two_sub_one_of_lt_two_pow
      (by rw [Nat.shiftRight_eq_div_pow]; omega)
  rw [h8]
  apply Nat.eq_of_testBit_eq
  intro i
  rw [show (255 : Nat) = 2 ^ 8 - 1 by norm_num]
  simp only [Nat.testBit_or, Nat.testBit_shiftLeft, Nat.testBit_shiftRight,
    Nat.testBit_and, Nat.testBit_two_pow_sub_one]
  by_cases h : 8 ≤ i
  · simp only [decide_eq_true h, Bool.true_and, show 8 + (i - 8) = i by omega,
      decide_eq_false (show ¬ i < 8 by omega), Bool.and_false, Bool.or_false]
  · simp only [decide_eq_false h, Bool.false_and, Bool.false_or,
      decide_eq_true (show i < 8 by omega), Bool.and_true]

/-- Classification of dispatch results: an exception with one of the four
legal codes, or a normal response whose head is the real slave address,
whose second octet is the echoed function code, and whose pre-CRC length is
between 4 and 253 octets. -/
def GoodResp (h : ModbusHandle) (func : Nat) (resp : List Nat) : Prop :=
  (∃ e, (e = 1 ∨ e = 2 ∨ e = 3 ∨ e = 4) ∧ resp = Modbus_SendException h func e) ∨
  (∃ tx, resp = Modbus_SendResponse h tx ∧ tx.getD 0 0 = h.slave_addr ∧
    tx.getD 1 0 = func ∧ 4 ≤ tx.length ∧ tx.length ≤ 253)

theorem processReadCoils_good (h : ModbusHandle) (rx : Nat → Nat) (func : Nat) :
    GoodResp h func (processReadCoils h rx func).2 := by
  unfold processReadCoils
  dsimp only
  split
  · exact Or.inl ⟨1, by norm_num, rfl⟩
  · split
    · exact Or.inl ⟨3, by norm_num, rfl⟩
    · split
      · exact Or.inl ⟨2, by norm_num, rfl⟩
      · refine Or.inr ⟨_, rfl, rfl, rfl, ?_, ?_⟩
        · simp only [List.length_append, List.length_cons, List.length_nil,
            packBits_length]
          omega
        · simp only [List.length_append, List.length_cons, List.length_nil,
            packBits_length]
          omega

theorem processReadDiscrete_good (h : ModbusHandle) (rx : Nat → Nat) (func : Nat) :
    GoodResp h func (processReadDiscrete h rx func).2 := by
  unfold processReadDiscrete
  dsimp only
  split
  · exact Or.inl ⟨1, by norm_num, rfl⟩
  · split
    · exact Or.inl ⟨3, by norm_num, rfl⟩
    · split
      · exact Or.inl ⟨2, by norm_num, rfl⟩
      · refine Or.inr ⟨_, rfl, rfl, rfl, ?_, ?_⟩
        · simp only [List.length_append, List.length_cons, List.length_nil,
            packBits_length]
          omega
        · simp only [List.length_append, List.length_cons, List.length_nil,
            packBits_length]
          omega

theorem processWriteSingleCoil_good (h : ModbusHandle) (rx : Nat → Nat) (func : Nat)
    (hfunc : func = byte rx 1) :
    GoodResp h func (processWriteSingleCoil h rx func).2 := by
  unfold processWriteSingleCoil
  dsimp only
  split
  · exact Or.inl ⟨1, by norm_num, rfl⟩
  · split
    · exact Or.inl ⟨2, by norm_num, rfl⟩
    · split
      · exact Or.inl ⟨4, by norm_num, rfl⟩
      · exact Or.inr ⟨echoHead h rx, rfl, rfl, hfunc.symm, by simp [echoHead],
          by simp [echoHead]⟩

theorem processWriteMultiCoils_good (h : ModbusHandle) (rx : Nat → Nat) (func : Nat)
    (hfunc : func = byte rx 1) :
    GoodResp h func (processWriteMultiCoils h rx func).2 := by
  unfold processWriteMultiCoils
  dsimp only
  split
  · exact Or.inl ⟨1, by norm_num, rfl⟩
  · split
    · exact Or.inl ⟨2, by norm_num, rfl⟩
    · split
      · exact Or.inl ⟨4, by norm_num, rfl⟩
      · exact Or.inr ⟨echoHead h rx, rfl, rfl, hfunc.symm, by simp [echoHead],
          by simp [echoHead]⟩

theorem processReadHolding_good (h : ModbusHandle) (rx : Nat → Nat) (func : Nat) :
    GoodResp h func (processReadHolding h rx func).2 := by
  unfold processReadHolding
  dsimp only
  split
  · exact Or.inl ⟨1, by norm_num, rfl⟩
  · split
    · exact Or.inl ⟨3, by norm_num, rfl⟩
    · split
      · exact Or.inl ⟨2, by norm_num, rfl⟩
      · refine Or.inr ⟨_, rfl, rfl, rfl, ?_, ?_⟩
        · simp only [List.length_append, List.length_cons, List.length_nil,
            regPayload_length]
          omega
        · simp only [List.length_append, List.length_cons, List.length_nil,
            regPayload_length]
          omega

theorem processWriteSingleReg_good (h : ModbusHandle) (rx : Nat → Nat) (func : Nat)
    (hfunc : func = byte rx 1) :
    GoodResp h func (processWriteSingleReg h rx func).2 := by
  unfold processWriteSingleReg
  dsimp only
  split
  · exact Or.inl ⟨1, by norm_num, rfl⟩
  · split
    · exact Or.inl ⟨2, by norm_num, rfl⟩
    · split
      · exact Or.inl ⟨4, by norm_num, rfl⟩
      · exact Or.inr ⟨echoHead h rx, rfl, rfl, hfunc.symm, by simp [echoHead],
          by simp [echoHead]⟩

theorem processWriteMultiRegs_good (h : ModbusHandle) (rx : Nat → Nat) (func : Nat)
    (hfunc : func = byte rx 1) :
    GoodResp h func (processWriteMultiRegs h rx func).2 := by
  unfold processWriteMultiRegs
  dsimp only
  split
  · exact Or.inl ⟨1, by norm_num, rfl⟩
  · split
    · exact Or.inl ⟨2, by norm_num, rfl⟩
    · split
      · exact Or.inl ⟨4, by norm_num, rfl⟩
      · exact Or.inr ⟨echoHead h rx, rfl, rfl, hfunc.symm, by simp [echoHead],
          by simp [echoHead]⟩

theorem processReadInput_good (h : ModbusHandle) (rx : Nat → Nat) (func : Nat) :
    GoodResp h func (processReadInput h rx func).2 := by
  unfold processReadInput
  dsimp only
  split
  · exact Or.inl ⟨1, by norm_num, rfl⟩
  · split
    · exact Or.inl ⟨3, by norm_num, rfl⟩
    · split
      · exact Or.inl ⟨2, by norm_num, rfl⟩
      · refine Or.inr ⟨_, rfl, rfl, rfl, ?_, ?_⟩
        · simp only [List.length_append, List.length_cons, List.length_nil,
            regPayload_length]
          omega
        · simp only [List.length_append, List.length_cons, List.length_nil,
            regPayload_length]
          omega

theorem processCustomConfig_good (h : ModbusHandle) (rx : Nat → Nat) (rx_len func : Nat)
    (hfunc : func = byte rx 1) :
    GoodResp h func (processCustomConfig h rx rx_len func).2 := by
  unfold processCustomConfig
  dsimp only
  split
  · exact Or.inl ⟨3, by norm_num, rfl⟩
  · split
    · exact Or.inl ⟨1, by norm_num, rfl⟩
    · split
      · exact Or.inr ⟨echoHead h rx, rfl, rfl, hfunc.symm, by simp [echoHead],
          by simp [echoHead]⟩
      · exact Or.inl ⟨3, by norm_num, rfl⟩

/-- Case analysis of the full dispatch: the response always classifies. -/
theorem modbusDispatch_good (h : ModbusHandle) (rx : Nat → Nat) (rx_len : Nat) :
    GoodResp h (byte rx 1) (modbusDispatch h rx rx_len).2 := by
  unfold modbusDispatch
  dsimp only
  split
  · exact processReadCoils_good h rx _
  · split
    · exact processWriteSingleCoil_good h rx _ rfl
    · split
      · exact processWriteMultiCoils_good h rx _ rfl
      · split
        · exact processReadDiscrete_good h rx _
        · split
          · exact processReadHolding_good h rx _
          · split
            · exact processWriteSingleReg_good h rx _ rfl
            · split
              · exact processWriteMultiRegs_good h rx _ rfl
              · split
                · exact processReadInput_good h rx _
                · split
                  · exact processCustomConfig_good h rx rx_len _ rfl
                  · exact Or.inl ⟨1, by norm_num, rfl⟩

/-! ### Small helpers used across claim proofs -/

/-- View a concrete byte list as a receive buffer (cells past the end read 0,
standing for arbitrary stale content). -/
def ofList (l : List Nat) : Nat → Nat := fun i => l.getD i 0

theorem byte_lt (rx : Nat → Nat) (i : Nat) : byte rx i < 256 :=
  Nat.mod_lt _ (by norm_num)

theorem be16_lt (rx : Nat → Nat) (i : Nat) : be16 rx i < 65536 := by
  unfold be16
  have h1 : byte rx i <<< 8 < 65536 := by
    rw [Nat.shiftLeft_eq]
    have := byte_lt rx i
    omega
  have h2 : byte rx (i + 1) < 65536 := Nat.lt_trans (byte_lt rx (i + 1)) (by norm_num)
  have e : (65536 : Nat) = 2 ^ 16 := by norm_num
  rw [e] at h1 h2 ⊢
  exact Nat.or_lt_two_pow h1 h2

theorem and_two_pow_ne_zero_iff (x m : Nat) : (x &&& (1 <<< m) ≠ 0) ↔ x.testBit m := by
  rw [Nat.one_shiftLeft]
  constructor
  · intro hne
    by_contra hbit
    apply hne
    apply Nat.eq_of_testBit_eq
    intro i
    simp only [Nat.testBit_and, Nat.testBit_two_pow, Nat.zero_testBit]
    by_cases him : m = i
    · subst him
      simp [Bool.eq_false_iff.mpr hbit]
    · simp [decide_eq_false him]
  · intro hbit hzero
    have : (x &&& 2 ^ m).testBit m = false := by
      rw [hzero]
      exact Nat.zero_testBit m
    rw [Nat.testBit_and, Nat.testBit_two_pow_self, Bool.and_true, hbit] at this
    exact absurd this (by decide)

theorem bitGet_testBit (region : Nat → Nat) (idx : Nat) :
    bitGet region idx = (region (idx / 8) % 256).testBit (idx % 8) := by
  unfold bitGet
  rcases hb : (region (idx / 8) % 256).testBit (idx % 8) with _ | _
  · simp only [decide_eq_false_iff_not]
    intro hne
    have hc := (and_two_pow_ne_zero_iff _ _).mp hne
    rw [hb] at hc
    exact absurd hc (by decide)
  · simp only [decide_eq_true_eq]
    exact (and_two_pow_ne_zero_iff _ _).mpr hb

theorem bitGet_setBit_self (region : Nat → Nat) (idx : Nat) :
    bitGet (setBit region idx) idx = true := by
  rw [bitGet_testBit]
  unfold setBit
  rw [if_pos rfl]
  have hlt : (region (idx / 8) % 256) ||| (1 <<< (idx % 8)) < 256 := by
    have e : (256 : Nat) = 2 ^ 8 := by norm_num
    rw [e]
    apply Nat.or_lt_two_pow
    · exact Nat.mod_lt _ (by norm_num)
    · rw [Nat.one_shiftLeft]
      exact Nat.pow_lt_pow_right (by norm_num) (Nat.mod_lt _ (by norm_num))
  rw [Nat.mod_eq_of_lt hlt, Nat.testBit_or, Nat.one_shiftLeft, Nat.testBit_two_pow_self,
      Bool.or_true]

theorem bitGet_clearBit_self (region : Nat → Nat) (idx : Nat) :
    bitGet (clearBit region idx) idx = false := by
  rw [bitGet_testBit]
  unfold clearBit
  rw [if_pos rfl]
  have hlt : (region (idx / 8) % 256) &&& (0xFF ^^^ (1 <<< (idx % 8))) < 256 :=
    Nat.lt_of_le_of_lt Nat.and_le_left (Nat.mod_lt _ (by norm_num))
  rw [Nat.mod_eq_of_lt hlt, Nat.testBit_and, Nat.one_shiftLeft, Nat.testBit_xor,
      Nat.testBit_two_pow_self,
      show (0xFF : Nat) = 2 ^ 8 - 1 by norm_num, Nat.testBit_two_pow_sub_one,
      decide_eq_true (Nat.mod_lt idx (by norm_num) : idx % 8 < 8)]
  simp

/-! ### Dispatch selection equations -/

theorem dispatch_eq_readCoils (h : ModbusHandle) (rx : Nat → Nat) (rx_len : Nat)
    (hf : byte rx 1 = 0x01) :
    modbusDispatch h rx rx_len = processReadCoils h rx (byte rx 1) := by
  unfold modbusDispatch
  dsimp only
  rw [hf]
  norm_num

theorem dispatch_eq_writeSingleCoil (h : ModbusHandle) (rx : Nat → Nat) (rx_len : Nat)
    (hf : byte rx 1 = 0x05) :
    modbusDispatch h rx rx_len = processWriteSingleCoil h rx (byte rx 1) := by
  unfold modbusDispatch
  dsimp only
  rw [hf]
  norm_num

theorem dispatch_eq_writeMultiCoils (h : ModbusHandle) (rx : Nat → Nat) (rx_len : Nat)
    (hf : byte rx 1 = 0x0F) :
    modbusDispatch h rx rx_len = processWriteMultiCoils h rx (byte rx 1) := by
  unfold modbusDispatch
  dsimp only
  rw [hf]
  norm_num

theorem dispatch_eq_readHolding (h : ModbusHandle) (rx : Nat → Nat) (rx_len : Nat)
    (hf : byte rx 1 = 0x03) :
    modbusDispatch h rx rx_len = processReadHolding h rx (byte rx 1) := by
  unfold modbusDispatch
  dsimp only
  rw [hf]
  norm_num

theorem dispatch_eq_writeSingleReg (h : ModbusHandle) (rx : Nat → Nat) (rx_len : Nat)
    (hf : byte rx 1 = 0x06) :
    modbusDispatch h rx rx_len = processWriteSingleReg h rx (byte rx 1) := by
  unfold modbusDispatch
  dsimp only
  rw [hf]
  norm_num

theorem dispatch_eq_writeMultiRegs (h : ModbusHandle) (rx : Nat → Nat) (rx_len : Nat)
    (hf : byte rx 1 = 0x10) :
    modbusDispatch h rx rx_len = processWriteMultiRegs h rx (byte rx 1) := by
  unfold modbusDispatch
  dsimp only
  rw [hf]
  norm_num

theorem dispatch_eq_customConfig (h : ModbusHandle) (rx : Nat → Nat) (rx_len : Nat)
    (hf : byte rx 1 = 0x64) :
    modbusDispatch h rx rx_len = processCustomConfig h rx rx_len (byte rx 1) := by
  unfold modbusDispatch
  dsimp only
  rw [hf]
  norm_num

theorem packBits_one (bits : Nat → Bool) :
    packBits bits 1 1 = [if bits 0 then 1 else 0] := by
  unfold packBits
  rw [show List.range 1 = [0] from rfl, List.foldl_cons, List.foldl_nil]
  by_cases hb : bits 0
  · rw [if_pos hb, if_pos hb]
    rfl
  · rw [if_neg hb, if_neg hb]
    rfl

/-! ### Concrete instances used by the witnesses -/

/-- A small register file: 16 coils (byte 0 = 0x05, so coils 0 and 2 are on),
16 discrete inputs, 8 holding registers, 8 input registers. -/
def wDataMap : Modbus_DataMap where
  coils := fun i => if i = 0 then 0x05 else 0
  coils_null := false
  coil_count := 16
  discrete_inputs := fun _ => 0
  discrete_null := false
  discrete_count := 16
  holding_regs := fun _ => 0
  holding_null := false
  holding_reg_count := 8
  input_regs := fun _ => 0
  input_null := false
  input_reg_count := 8

/-- A concrete slave instance: address 1, shift CRC, 256-byte tx buffer,
no callbacks. -/
def wHandle : ModbusHandle where
  slave_addr := 1
  use_crc_table := false
  tx_buf_size := 256
  data_map := wDataMap
  write_cb := none
  custom_config_cb := none

/-! ### C1 -/

/-- C1: every received byte run that fails transport validation — length
less than 4, byte 0 neither the slave address nor 0xFF, or trailing CRC
(low byte first) different from CRC-16/Modbus over bytes 0..length-3 —
produces zero response bytes and leaves the handle, in particular the
register file, unchanged. -/
theorem C1_transport_invalid_drop (h : ModbusHandle) (rx : Nat → Nat) (rx_len : Nat)
    (hbad : rx_len < 4 ∨ (byte rx 0 ≠ h.slave_addr ∧ byte rx 0 ≠ 0xFF) ∨
      receivedCrc rx rx_len ≠ calculatedCrc h rx rx_len) :
    Modbus_Process h rx rx_len = (h, []) := by
  apply modbusProcess_of_invalid
  intro ⟨h4, haddr, hcrc⟩
  rcases hbad with hlen | haddr2 | hcrc2
  · omega
  · rcases haddr with hA | hA
    · exact haddr2.1 hA
    · exact haddr2.2 hA
  · exact hcrc2 hcrc

set_option maxRecDepth 100000 in
theorem C1_witness :
    Modbus_Process wHandle (ofList [0x01, 0x03, 0x00, 0x00, 0x00, 0x02, 0x00, 0x00]) 8 =
      (wHandle, []) :=
  C1_transport_invalid_drop wHandle _ 8 (by decide)

/-! ### C8 -/

/-- C8: for every byte buffer the table branch of `Modbus_CRC16` returns the
same CRC as the shift branch, and each `CRC16_TABLE` entry equals the shift
algorithm applied to the single octet `i` starting from CRC value 0. -/
theorem C8_crc_equivalence :
    (∀ buffer : List Nat, Modbus_CRC16 true buffer = Modbus_CRC16 false buffer) ∧
    (∀ i, i < 256 → CRC16_TABLE.getD i 0 = crcUpdateShift 0 i) := by
  constructor
  · exact crc16_branches_agree
  · intro i hi
    rw [crc16_table_entries i hi]
    unfold crcUpdateShift
    rw [show (0xFF : Nat) = 2 ^ 8 - 1 by norm_num,
        Nat.and_pow_two_sub_one_of_lt_two_pow (by simpa using hi), Nat.zero_xor]

theorem C8_witness :
    Modbus_CRC16 true [0x01, 0x03, 0x00, 0x00, 0x00, 0x0A] =
      Modbus_CRC16 false [0x01, 0x03, 0x00, 0x00, 0x00, 0x0A] ∧
    CRC16_TABLE.getD 5 0 = crcUpdateShift 0 5 :=
  ⟨C8_crc_equivalence.1 _, C8_crc_equivalence.2 5 (by decide)⟩

/-! ### C4 -/

/-- C4: frames whose first byte is neither the slave address nor 0xFF are
dropped with no response; transport-valid frames addressed to 0xFF are
answered, and the response's first octet is the instance's real slave
address (this holds for every function code, the echo-style ones included). -/
theorem C4_address_filter (h : ModbusHandle) (rx : Nat → Nat) (rx_len : Nat) :
    (byte rx 0 ≠ h.slave_addr → byte rx 0 ≠ 0xFF → Modbus_Process h rx rx_len = (h, [])) ∧
    (byte rx 0 = 0xFF → transportOk h rx rx_len → 256 ≤ h.tx_buf_size →
      (Modbus_Process h rx rx_len).2 ≠ [] ∧
      (Modbus_Process h rx rx_len).2.getD 0 0 = h.slave_addr) := by
  constructor
  · intro h1 h2
    apply modbusProcess_of_invalid
    intro ⟨_, haddr, _⟩
    rcases haddr with hA | hA
    · exact h1 hA
    · exact h2 hA
  · intro _ hv hsize
    rw [modbusProcess_of_valid h rx rx_len hv]
    rcases modbusDispatch_good h rx rx_len with ⟨e, he, heq⟩ | ⟨tx, heq, hhead, _, hge, hle⟩
    · rw [heq, sendException_eq h _ e (by omega)]
      exact ⟨by simp, rfl⟩
    · rw [heq, sendResponse_eq h tx (by omega)]
      constructor
      · simp
      · rw [List.getD_eq_getElem?_getD, List.getElem?_append_left (by omega),
            ← List.getD_eq_getElem?_getD]
        exact hhead

set_option maxRecDepth 100000 in
theorem C4_witness :
    Modbus_Process wHandle (ofList [0x02, 0x03, 0x00, 0x00, 0x00, 0x02, 0xC4, 0x0B]) 8 =
      (wHandle, []) ∧
    ((Modbus_Process wHandle (ofList [0xFF, 0x03, 0x00, 0x00, 0x00, 0x01, 0x91, 0xD4]) 8).2 ≠ [] ∧
      (Modbus_Process wHandle (ofList [0xFF, 0x03, 0x00, 0x00, 0x00, 0x01, 0x91, 0xD4]) 8).2.getD 0 0 =
        wHandle.slave_addr) :=
  ⟨(C4_address_filter wHandle _ 8).1 (by decide) (by decide),
   (C4_address_filter wHandle _ 8).2 (by decide) (by decide) (by decide)⟩

/-! ### C5 -/

/-- C5: every exception response the engine emits has exactly 5 octets;
conversely every length-5 engine output carries the slave address, the
request function code with bit 7 set, one of the four exception codes
0x01-0x04, and a valid trailing CRC-16/Modbus over the first three octets,
low byte first. -/
theorem C5_exception_shape (h : ModbusHandle) (rx : Nat → Nat) (rx_len : Nat)
    (hsize : 256 ≤ h.tx_buf_size) :
    (∀ func exc, (exc = 0x01 ∨ exc = 0x02 ∨ exc = 0x03 ∨ exc = 0x04) →
      (Modbus_SendException h func exc).length = 5) ∧
    ((Modbus_Process h rx rx_len).2.length = 5 →
      (Modbus_Process h rx rx_len).2.getD 0 0 = h.slave_addr ∧
      (Modbus_Process h rx rx_len).2.getD 1 0 = (byte rx 1 ||| 0x80) ∧
      ((Modbus_Process h rx rx_len).2.getD 2 0 = 0x01 ∨
        (Modbus_Process h rx rx_len).2.getD 2 0 = 0x02 ∨
        (Modbus_Process h rx rx_len).2.getD 2 0 = 0x03 ∨
        (Modbus_Process h rx rx_len).2.getD 2 0 = 0x04) ∧
      ((Modbus_Process h rx rx_len).2.getD 4 0) <<< 8 |||
          ((Modbus_Process h rx rx_len).2.getD 3 0) =
        Modbus_CRC16 false ((Modbus_Process h rx rx_len).2.take 3)) := by
  constructor
  · intro func exc _
    exact sendException_length h func exc (by omega)
  · intro hlen
    by_cases hv : transportOk h rx rx_len
    · rw [modbusProcess_of_valid h rx rx_len hv] at hlen ⊢
      rcases modbusDispatch_good h rx rx_len with ⟨e, he, heq⟩ | ⟨tx, heq, _, _, hge, hle⟩
      · rw [heq] at hlen ⊢
        rw [sendException_eq h _ e (by omega)]
        refine ⟨rfl, rfl, he, ?_⟩
        show ((Modbus_CRC16 h.use_crc_table [h.slave_addr, byte rx 1 ||| 0x80, e] >>> 8) &&& 255) <<< 8 |||
            (Modbus_CRC16 h.use_crc_table [h.slave_addr, byte rx 1 ||| 0x80, e] &&& 255) =
          Modbus_CRC16 false [h.slave_addr, byte rx 1 ||| 0x80, e]
        rw [hilo_or_reassemble _ (modbusCRC16_lt _ _), modbusCRC16_eq_shift]
      · rw [heq, sendResponse_length h tx (by omega)] at hlen
        omega
    · rw [modbusProcess_of_invalid h rx rx_len hv] at hlen
      simp at hlen

set_option maxRecDepth 100000 in
theorem C5_witness :
    (Modbus_Process wHandle (ofList [0x01, 0x07, 0x41, 0xE2]) 4).2.getD 0 0 =
        wHandle.slave_addr ∧
    (Modbus_Process wHandle (ofList [0x01, 0x07, 0x41, 0xE2]) 4).2.getD 1 0 =
        (byte (ofList [0x01, 0x07, 0x41, 0xE2]) 1 ||| 0x80) :=
  ⟨((C5_exception_shape wHandle _ 4 (by decide)).2 (by decide)).1,
   ((C5_exception_shape wHandle _ 4 (by decide)).2 (by decide)).2.1⟩

/-! ### C2 -/

/-- C2: for every transport-valid Read Coils (0x01) frame: a missing coil
region yields exception 0x01; a quantity outside [1, 2000] yields exception
0x03; a range overrun yields exception 0x02; otherwise the response carries
a byte_count octet equal to (quantity + 7) / 8 followed by byte_count
payload octets in which bit `i` (LSB-first per octet) equals coil bit
`start_addr + i` of the coil region. -/
theorem C2_read_coils (h : ModbusHandle) (rx : Nat → Nat) (rx_len : Nat)
    (hv : transportOk h rx rx_len) (hf : byte rx 1 = 0x01)
    (hsize : 256 ≤ h.tx_buf_size) :
    ((h.data_map.coils_null = true ∨ h.data_map.coil_count = 0) →
      (Modbus_Process h rx rx_len).2 = Modbus_SendException h 0x01 0x01) ∧
    (¬ (h.data_map.coils_null = true ∨ h.data_map.coil_count = 0) →
      (be16 rx 4 < 1 ∨ be16 rx 4 > 2000) →
      (Modbus_Process h rx rx_len).2 = Modbus_SendException h 0x01 0x03) ∧
    (¬ (h.data_map.coils_null = true ∨ h.data_map.coil_count = 0) →
      ¬ (be16 rx 4 < 1 ∨ be16 rx 4 > 2000) →
      be16 rx 2 + be16 rx 4 > h.data_map.coil_count →
      (Modbus_Process h rx rx_len).2 = Modbus_SendException h 0x01 0x02) ∧
    (¬ (h.data_map.coils_null = true ∨ h.data_map.coil_count = 0) →
      ¬ (be16 rx 4 < 1 ∨ be16 rx 4 > 2000) →
      ¬ (be16 rx 2 + be16 rx 4 > h.data_map.coil_count) →
      (Modbus_Process h rx rx_len).2.length = 5 + (be16 rx 4 + 7) / 8 ∧
      (Modbus_Process h rx rx_len).2.getD 0 0 = h.slave_addr ∧
      (Modbus_Process h rx rx_len).2.getD 1 0 = 0x01 ∧
      (Modbus_Process h rx rx_len).2.getD 2 0 = (be16 rx 4 + 7) / 8 ∧
      ∀ i, i < be16 rx 4 →
        ((Modbus_Process h rx rx_len).2.getD (3 + i / 8) 0).testBit (i % 8) =
          bitGet h.data_map.coils (be16 rx 2 + i)) := by
  have hp : Modbus_Process h rx rx_len = processReadCoils h rx 1 := by
    rw [modbusProcess_of_valid h rx rx_len hv, dispatch_eq_readCoils h rx rx_len hf, hf]
  rw [hp]
  unfold processReadCoils
  dsimp only
  refine ⟨?_, ?_, ?_, ?_⟩
  · intro hr
    rw [if_pos hr]
  · intro hr hq
    rw [if_neg hr, if_pos hq]
  · intro hr hq ha
    rw [if_neg hr, if_neg hq, if_pos ha]
  · intro hr hq ha
    rw [if_neg hr, if_neg hq, if_neg ha]
    have hqty : 1 ≤ be16 rx 4 ∧ be16 rx 4 ≤ 2000 := by omega
    have hbc : (be16 rx 4 + 7) / 8 ≤ 251 := by omega
    have hplen : (packBits (fun i => bitGet h.data_map.coils (be16 rx 2 + i))
        (be16 rx 4) ((be16 rx 4 + 7) / 8)).length = (be16 rx 4 + 7) / 8 :=
      packBits_length _ _ _
    have htx : ([h.slave_addr, 1, (be16 rx 4 + 7) / 8] ++
        packBits (fun i => bitGet h.data_map.coils (be16 rx 2 + i))
          (be16 rx 4) ((be16 rx 4 + 7) / 8)).length + 2 ≤ h.tx_buf_size := by
      simp only [List.length_append, List.length_cons, List.length_nil, hplen]
      omega
    rw [sendResponse_eq h _ htx]
    refine ⟨?_, rfl, rfl, rfl, ?_⟩
    · simp only [List.length_append, List.length_cons, List.length_nil, hplen]
      omega
    · intro i hi
      have hj : i / 8 < (be16 rx 4 + 7) / 8 := by omega
      have hk : i % 8 < 8 := by omega
      dsimp only
      rw [List.append_assoc]
      simp only [List.cons_append, List.nil_append]
      rw [show (3 + i / 8) = (i / 8 + 1 + 1 + 1) by omega,
          List.getD_cons_succ, List.getD_cons_succ, List.getD_cons_succ,
          List.getD_eq_getElem?_getD, List.getElem?_append_left (by rw [hplen]; exact hj),
          ← List.getD_eq_getElem?_getD,
          packBits_testBit _ _ _ _ _ hj hk]
      have hieq : 8 * (i / 8) + i % 8 = i := by omega
      simp only [hieq, decide_eq_true hi, Bool.true_and]

set_option maxRecDepth 100000 in
theorem C2_witness :
    (Modbus_Process wHandle (ofList [0x01, 0x01, 0x00, 0x02, 0x00, 0x01, 0x5C, 0x0A]) 8).2.length =
        5 + (be16 (ofList [0x01, 0x01, 0x00, 0x02, 0x00, 0x01, 0x5C, 0x0A]) 4 + 7) / 8 ∧
    ((Modbus_Process wHandle (ofList [0x01, 0x01, 0x00, 0x02, 0x00, 0x01, 0x5C, 0x0A]) 8).2.getD
        (3 + 0 / 8) 0).testBit (0 % 8) =
      bitGet wHandle.data_map.coils
        (be16 (ofList [0x01, 0x01, 0x00, 0x02, 0x00, 0x01, 0x5C, 0x0A]) 2 + 0) :=
  ⟨((C2_read_coils wHandle _ 8 (by decide) (by decide) (by decide)).2.2.2
      (by decide) (by decide) (by decide)).1,
   ((C2_read_coils wHandle _ 8 (by decide) (by decide) (by decide)).2.2.2
      (by decide) (by decide) (by decide)).2.2.2.2 0 (by decide)⟩

/-! ### C6 -/

/-- C6: a transport-valid Write Single Coil (0x05) frame with in-range
address and an approving (or absent) write callback sets the addressed coil
bit when the value field is 0xFF00, clears it when the value is 0x0000, and
leaves the handle entirely unchanged for any other value; in all three
cases the response is the 6-byte request head echoed with the real slave
address, followed by the CRC. -/
theorem C6_write_single_coil (h : ModbusHandle) (rx : Nat → Nat) (rx_len : Nat)
    (hv : transportOk h rx rx_len) (hf : byte rx 1 = 0x05)
    (hsize : 256 ≤ h.tx_buf_size)
    (hnull : h.data_map.coils_null = false) (hcnt : h.data_map.coil_count ≠ 0)
    (haddr : be16 rx 2 < h.data_map.coil_count)
    (hcb : writeAllowed h.write_cb 0x05 (be16 rx 2) 1 = true) :
    (be16 rx 4 = 0xFF00 →
      bitGet (Modbus_Process h rx rx_len).1.data_map.coils (be16 rx 2) = true) ∧
    (be16 rx 4 = 0x0000 →
      bitGet (Modbus_Process h rx rx_len).1.data_map.coils (be16 rx 2) = false) ∧
    (be16 rx 4 ≠ 0xFF00 → be16 rx 4 ≠ 0x0000 → (Modbus_Process h rx rx_len).1 = h) ∧
    (Modbus_Process h rx rx_len).2 =
      echoHead h rx ++
        [Modbus_CRC16 false (echoHead h rx) &&& 0xFF,
         (Modbus_CRC16 false (echoHead h rx) >>> 8) &&& 0xFF] := by
  have hp : Modbus_Process h rx rx_len = processWriteSingleCoil h rx 5 := by
    rw [modbusProcess_of_valid h rx rx_len hv,
        dispatch_eq_writeSingleCoil h rx rx_len hf, hf]
  rw [hp]
  unfold processWriteSingleCoil
  dsimp only
  rw [if_neg (by simp [hnull, hcnt]), if_neg (by omega), if_neg (by simp [hcb])]
  refine ⟨?_, ?_, ?_, ?_⟩
  · intro hval
    dsimp only
    rw [if_pos hval]
    exact bitGet_setBit_self _ _
  · intro hval
    dsimp only
    rw [if_neg (by omega), if_pos hval]
    exact bitGet_clearBit_self _ _
  · intro h1 h2
    dsimp only
    rw [if_neg h1, if_neg h2]
  · dsimp only
    rw [sendResponse_eq h _ (by simp [echoHead]; omega), modbusCRC16_eq_shift]

/-! ### C9 -/

/-- C9: for a transport-valid Custom Configuration (0x64) frame: a length
other than 8 octets yields exception 0x03; with no callback installed the
response is exception 0x01; otherwise the callback receives the big-endian
parameter address (bytes 2..3) and value (bytes 4..5), a true return echoes
the 6-byte request head plus CRC, and a false return yields exception 0x03. -/
theorem C9_custom_config (h : ModbusHandle) (rx : Nat → Nat) (rx_len : Nat)
    (hv : transportOk h rx rx_len) (hf : byte rx 1 = 0x64)
    (hsize : 256 ≤ h.tx_buf_size) :
    (rx_len ≠ 8 → (Modbus_Process h rx rx_len).2 = Modbus_SendException h 0x64 0x03) ∧
    (rx_len = 8 → h.custom_config_cb = none →
      (Modbus_Process h rx rx_len).2 = Modbus_SendException h 0x64 0x01) ∧
    (∀ cb, rx_len = 8 → h.custom_config_cb = some cb →
      (cb (be16 rx 2) (be16 rx 4) = true →
        (Modbus_Process h rx rx_len).2 =
          echoHead h rx ++
            [Modbus_CRC16 false (echoHead h rx) &&& 0xFF,
             (Modbus_CRC16 false (echoHead h rx) >>> 8) &&& 0xFF]) ∧
      (cb (be16 rx 2) (be16 rx 4) = false →
        (Modbus_Process h rx rx_len).2 = Modbus_SendException h 0x64 0x03)) := by
  have hp : Modbus_Process h rx rx_len = processCustomConfig h rx rx_len 0x64 := by
    rw [modbusProcess_of_valid h rx rx_len hv,
        dispatch_eq_customConfig h rx rx_len hf, hf]
  rw [hp]
  unfold processCustomConfig
  dsimp only
  refine ⟨?_, ?_, ?_⟩
  · intro hne
    rw [if_pos hne]
  · intro h8 hnone
    rw [if_neg (by omega), hnone]
  · intro cb h8 hsome
    rw [if_neg (by omega), hsome]
    dsimp only
    constructor
    · intro ht
      rw [if_pos ht]
      dsimp only
      rw [sendResponse_eq h _ (by simp [echoHead]; omega), modbusCRC16_eq_shift]
    · intro hfalse
      rw [if_neg (by simp [hfalse])]

set_option maxRecDepth 400000 in
theorem C9_witness :
    (Modbus_Process { wHandle with custom_config_cb := some fun _ _ => true }
        (ofList [0x01, 0x64, 0x00, 0x00, 0x00, 0x00, 0x70, 0x02]) 8).2 =
      echoHead { wHandle with custom_config_cb := some fun _ _ => true }
          (ofList [0x01, 0x64, 0x00, 0x00, 0x00, 0x00, 0x70, 0x02]) ++
        [Modbus_CRC16 false (echoHead { wHandle with custom_config_cb := some fun _ _ => true }
            (ofList [0x01, 0x64, 0x00, 0x00, 0x00, 0x00, 0x70, 0x02])) &&& 0xFF,
         (Modbus_CRC16 false (echoHead { wHandle with custom_config_cb := some fun _ _ => true }
            (ofList [0x01, 0x64, 0x00, 0x00, 0x00, 0x00, 0x70, 0x02])) >>> 8) &&& 0xFF] :=
  ((C9_custom_config _ _ 8 (by decide) (by decide) (by decide)).2.2
      (fun _ _ => true) rfl rfl).1 rfl

/-! ### C10 -/

/-- C10: Write Multiple Coils (0x0F) and Write Multiple Registers (0x10)
perform no quantity validation: a transport-valid frame with quantity 0 and
start address at most the region count (region present, write callback
absent or approving) writes nothing, leaves the handle unchanged, and is
answered with the normal echo response instead of exception 0x03. -/
theorem C10_write_multi_quantity_zero (h : ModbusHandle) (rx : Nat → Nat) (rx_len : Nat)
    (hv : transportOk h rx rx_len) (hsize : 256 ≤ h.tx_buf_size)
    (hq0 : be16 rx 4 = 0) :
    (byte rx 1 = 0x0F →
      h.data_map.coils_null = false → h.data_map.coil_count ≠ 0 →
      be16 rx 2 ≤ h.data_map.coil_count →
      writeAllowed h.write_cb 0x0F (be16 rx 2) (be16 rx 4) = true →
      Modbus_Process h rx rx_len =
        (h, echoHead h rx ++
          [Modbus_CRC16 false (echoHead h rx) &&& 0xFF,
           (Modbus_CRC16 false (echoHead h rx) >>> 8) &&& 0xFF])) ∧
    (byte rx 1 = 0x10 →
      h.data_map.holding_null = false → h.data_map.holding_reg_count ≠ 0 →
      be16 rx 2 ≤ h.data_map.holding_reg_count →
      writeAllowed h.write_cb 0x10 (be16 rx 2) (be16 rx 4) = true →
      Modbus_Process h rx rx_len =
        (h, echoHead h rx ++
          [Modbus_CRC16 false (echoHead h rx) &&& 0xFF,
           (Modbus_CRC16 false (echoHead h rx) >>> 8) &&& 0xFF])) := by
  constructor
  · intro hf hnull hcnt hstart hcb
    rw [modbusProcess_of_valid h rx rx_len hv,
        dispatch_eq_writeMultiCoils h rx rx_len hf, hf]
    unfold processWriteMultiCoils
    dsimp only
    rw [if_neg (by simp [hnull, hcnt]), if_neg (by omega), if_neg (by simp [hcb]), hq0,
        sendResponse_eq h _ (by simp [echoHead]; omega), modbusCRC16_eq_shift]
    rfl
  · intro hf hnull hcnt hstart hcb
    rw [modbusProcess_of_valid h rx rx_len hv,
        dispatch_eq_writeMultiRegs h rx rx_len hf, hf]
    unfold processWriteMultiRegs
    dsimp only
    rw [if_neg (by simp [hnull, hcnt]), if_neg (by omega), if_neg (by simp [hcb]), hq0,
        sendResponse_eq h _ (by simp [echoHead]; omega), modbusCRC16_eq_shift]
    rfl

set_option maxRecDepth 400000 in
theorem C10_witness :
    Modbus_Process wHandle (ofList [0x01, 0x0F, 0x00, 0x00, 0x00, 0x00, 0x00, 0x0B, 0x3F]) 9 =
      (wHandle, echoHead wHandle (ofList [0x01, 0x0F, 0x00, 0x00, 0x00, 0x00, 0x00, 0x0B, 0x3F]) ++
        [Modbus_CRC16 false (echoHead wHandle
            (ofList [0x01, 0x0F, 0x00, 0x00, 0x00, 0x00, 0x00, 0x0B, 0x3F])) &&& 0xFF,
         (Modbus_CRC16 false (echoHead wHandle
            (ofList [0x01, 0x0F, 0x00, 0x00, 0x00, 0x00, 0x00, 0x0B, 0x3F])) >>> 8) &&& 0xFF]) ∧
    Modbus_Process wHandle (ofList [0x01, 0x10, 0x00, 0x00, 0x00, 0x00, 0x00, 0x09, 0x50]) 9 =
      (wHandle, echoHead wHandle (ofList [0x01, 0x10, 0x00, 0x00, 0x00, 0x00, 0x00, 0x09, 0x50]) ++
        [Modbus_CRC16 false (echoHead wHandle
            (ofList [0x01, 0x10, 0x00, 0x00, 0x00, 0x00, 0x00, 0x09, 0x50])) &&& 0xFF,
         (Modbus_CRC16 false (echoHead wHandle
            (ofList [0x01, 0x10, 0x00, 0x00, 0x00, 0x00, 0x00, 0x09, 0x50])) >>> 8) &&& 0xFF]) :=
  ⟨(C10_write_multi_quantity_zero wHandle _ 9 (by decide) (by decide) (by decide)).1
      (by decide) (by decide) (by decide) (by decide) (by decide),
   (C10_write_multi_quantity_zero wHandle _ 9 (by decide) (by decide) (by decide)).2
      (by decide) (by decide) (by decide) (by decide) (by decide)⟩

/-! ### C3 -/

/-- A slave whose custom-configuration callback rejects every request. -/
def cHandle : ModbusHandle := { wHandle with custom_config_cb := some fun _ _ => false }

set_option maxRecDepth 400000 in
/-- C3 counterexample: on the transport-valid 0x64 frame
`01 64 00 00 00 00 70 02`, the rejecting custom-configuration callback
produces exception code 0x03 (illegal data value), not 0x04 (slave device
failure) as the claim states. -/
theorem C3_counterexample :
    (Modbus_Process cHandle (ofList [0x01, 0x64, 0x00, 0x00, 0x00, 0x00, 0x70, 0x02]) 8).2 =
      Modbus_SendException cHandle 0x64 0x03 ∧
    (Modbus_Process cHandle (ofList [0x01, 0x64, 0x00, 0x00, 0x00, 0x00, 0x70, 0x02]) 8).2.getD 2 0 ≠
      0x04 := by
  constructor
  · decide
  · decide

/-- C3 (amended): a rejecting `write_cb` on the write functions 0x05, 0x06,
0x0F and 0x10 (after the region and address checks pass) yields exception
0x04, while a rejecting `custom_config_cb` on function 0x64 yields
exception 0x03, not 0x04. -/
theorem C3_callback_rejection (h : ModbusHandle) (rx : Nat → Nat) (rx_len : Nat)
    (hv : transportOk h rx rx_len) :
    (byte rx 1 = 0x05 →
      h.data_map.coils_null = false → h.data_map.coil_count ≠ 0 →
      be16 rx 2 < h.data_map.coil_count →
      writeAllowed h.write_cb 0x05 (be16 rx 2) 1 = false →
      (Modbus_Process h rx rx_len).2 = Modbus_SendException h 0x05 0x04) ∧
    (byte rx 1 = 0x06 →
      h.data_map.holding_null = false → h.data_map.holding_reg_count ≠ 0 →
      be16 rx 2 < h.data_map.holding_reg_count →
      writeAllowed h.write_cb 0x06 (be16 rx 2) 1 = false →
      (Modbus_Process h rx rx_len).2 = Modbus_SendException h 0x06 0x04) ∧
    (byte rx 1 = 0x0F →
      h.data_map.coils_null = false → h.data_map.coil_count ≠ 0 →
      be16 rx 2 + be16 rx 4 ≤ h.data_map.coil_count →
      writeAllowed h.write_cb 0x0F (be16 rx 2) (be16 rx 4) = false →
      (Modbus_Process h rx rx_len).2 = Modbus_SendException h 0x0F 0x04) ∧
    (byte rx 1 = 0x10 →
      h.data_map.holding_null = false → h.data_map.holding_reg_count ≠ 0 →
      be16 rx 2 + be16 rx 4 ≤ h.data_map.holding_reg_count →
      writeAllowed h.write_cb 0x10 (be16 rx 2) (be16 rx 4) = false →
      (Modbus_Process h rx rx_len).2 = Modbus_SendException h 0x10 0x04) ∧
    (byte rx 1 = 0x64 → rx_len = 8 →
      ∀ cb, h.custom_config_cb = some cb →
      cb (be16 rx 2) (be16 rx 4) = false →
      (Modbus_Process h rx rx_len).2 = Modbus_SendException h 0x64 0x03) := by
  refine ⟨?_, ?_, ?_, ?_, ?_⟩
  · intro hf hnull hcnt haddr hcb
    rw [modbusProcess_of_valid h rx rx_len hv,
        dispatch_eq_writeSingleCoil h rx rx_len hf, hf]
    unfold processWriteSingleCoil
    dsimp only
    rw [if_neg (by simp [hnull, hcnt]), if_neg (by omega), if_pos hcb]
  · intro hf hnull hcnt haddr hcb
    rw [modbusProcess_of_valid h rx rx_len hv,
        dispatch_eq_writeSingleReg h rx rx_len hf, hf]
    unfold processWriteSingleReg
    dsimp only
    rw [if_neg (by simp [hnull, hcnt]), if_neg (by omega), if_pos hcb]
  · intro hf hnull hcnt hrange hcb
    rw [modbusProcess_of_valid h rx rx_len hv,
        dispatch_eq_writeMultiCoils h rx rx_len hf, hf]
    unfold processWriteMultiCoils
    dsimp only
    rw [if_neg (by simp [hnull, hcnt]), if_neg (by omega), if_pos hcb]
  · intro hf hnull hcnt hrange hcb
    rw [modbusProcess_of_valid h rx rx_len hv,
        dispatch_eq_writeMultiRegs h rx rx_len hf, hf]
    unfold processWriteMultiRegs
    dsimp only
    rw [if_neg (by simp [hnull, hcnt]), if_neg (by omega), if_pos hcb]
  · intro hf h8 cb hsome hcb
    rw [modbusProcess_of_valid h rx rx_len hv,
        dispatch_eq_customConfig h rx rx_len hf, hf]
    unfold processCustomConfig
    dsimp only
    rw [if_neg (by omega), hsome]
    dsimp only
    rw [if_neg (by simp [hcb])]

/-- A slave whose write callback rejects every write. -/
def rHandle : ModbusHandle := { wHandle with write_cb := some fun _ _ _ => false }

set_option maxRecDepth 400000 in
theorem C3_witness :
    (Modbus_Process rHandle (ofList [0x01, 0x05, 0x00, 0x03, 0xFF, 0x00, 0x7C, 0x3A]) 8).2 =
      Modbus_SendException rHandle 0x05 0x04 ∧
    (Modbus_Process cHandle (ofList [0x01, 0x64, 0x00, 0x00, 0x00, 0x00, 0x70, 0x02]) 8).2 =
      Modbus_SendException cHandle 0x64 0x03 :=
  ⟨(C3_callback_rejection rHandle _ 8 (by decide)).1
      (by decide) (by decide) (by decide) (by decide) (by decide),
   (C3_callback_rejection cHandle _ 8 (by decide)).2.2.2.2
      (by decide) rfl (fun _ _ => false) rfl rfl⟩

set_option maxRecDepth 400000 in
theorem C6_witness :
    bitGet (Modbus_Process wHandle (ofList [0x01, 0x05, 0x00, 0x03, 0xFF, 0x00, 0x7C, 0x3A]) 8).1.data_map.coils
        (be16 (ofList [0x01, 0x05, 0x00, 0x03, 0xFF, 0x00, 0x7C, 0x3A]) 2) = true ∧
    (Modbus_Process wHandle (ofList [0x01, 0x05, 0x00, 0x03, 0xFF, 0x00, 0x7C, 0x3A]) 8).2 =
      echoHead wHandle (ofList [0x01, 0x05, 0x00, 0x03, 0xFF, 0x00, 0x7C, 0x3A]) ++
        [Modbus_CRC16 false (echoHead wHandle (ofList [0x01, 0x05, 0x00, 0x03, 0xFF, 0x00, 0x7C, 0x3A])) &&& 0xFF,
         (Modbus_CRC16 false (echoHead wHandle (ofList [0x01, 0x05, 0x00, 0x03, 0xFF, 0x00, 0x7C, 0x3A])) >>> 8) &&& 0xFF] :=
  ⟨(C6_write_single_coil wHandle _ 8 (by decide) (by decide) (by decide) (by decide)
      (by decide) (by decide) (by decide)).1 (by decide),
   (C6_write_single_coil wHandle _ 8 (by decide) (by decide) (by decide) (by decide)
      (by decide) (by decide) (by decide)).2.2.2⟩

/-! ### C7 -/

theorem regPayload_one (reg : Nat → Nat) (s : Nat) :
    regPayload reg s 1 = [(reg s >>> 8) &&& 0xFF, reg s &&& 0xFF] := by
  unfold regPayload
  rw [show List.range 1 = [0] from rfl, List.foldl_cons, List.foldl_nil]
  rfl

/-- C7: a Write Single Register (0x06) followed by Read Holding Registers
(0x03) of the same address returns exactly the written value, bit for bit
(the two response payload octets reassemble to the written word); likewise
a Write Single Coil (0x05, value 0xFF00 or 0x0000) followed by Read Coils
(0x01) of the same address returns payload 1 exactly when the coil was set. -/
theorem C7_write_read_roundtrip :
    (∀ (h : ModbusHandle) (rx1 : Nat → Nat) (len1 : Nat) (rx2 : Nat → Nat) (len2 : Nat),
      transportOk h rx1 len1 → byte rx1 1 = 0x06 →
      h.data_map.holding_null = false → h.data_map.holding_reg_count ≠ 0 →
      be16 rx1 2 < h.data_map.holding_reg_count →
      writeAllowed h.write_cb 0x06 (be16 rx1 2) 1 = true →
      256 ≤ h.tx_buf_size →
      transportOk (Modbus_Process h rx1 len1).1 rx2 len2 →
      byte rx2 1 = 0x03 → be16 rx2 2 = be16 rx1 2 → be16 rx2 4 = 1 →
      ((Modbus_Process (Modbus_Process h rx1 len1).1 rx2 len2).2 =
        [h.slave_addr, 0x03, 2, (be16 rx1 4 >>> 8) &&& 0xFF, be16 rx1 4 &&& 0xFF] ++
          [Modbus_CRC16 false
              [h.slave_addr, 0x03, 2, (be16 rx1 4 >>> 8) &&& 0xFF, be16 rx1 4 &&& 0xFF] &&& 0xFF,
           (Modbus_CRC16 false
              [h.slave_addr, 0x03, 2, (be16 rx1 4 >>> 8) &&& 0xFF, be16 rx1 4 &&& 0xFF] >>> 8) &&& 0xFF] ∧
       ((be16 rx1 4 >>> 8) &&& 0xFF) <<< 8 ||| (be16 rx1 4 &&& 0xFF) = be16 rx1 4)) ∧
    (∀ (h : ModbusHandle) (rx1 : Nat → Nat) (len1 : Nat) (rx2 : Nat → Nat) (len2 : Nat),
      transportOk h rx1 len1 → byte rx1 1 = 0x05 →
      h.data_map.coils_null = false → h.data_map.coil_count ≠ 0 →
      be16 rx1 2 < h.data_map.coil_count →
      writeAllowed h.write_cb 0x05 (be16 rx1 2) 1 = true →
      256 ≤ h.tx_buf_size →
      (be16 rx1 4 = 0xFF00 ∨ be16 rx1 4 = 0x0000) →
      transportOk (Modbus_Process h rx1 len1).1 rx2 len2 →
      byte rx2 1 = 0x01 → be16 rx2 2 = be16 rx1 2 → be16 rx2 4 = 1 →
      (Modbus_Process (Modbus_Process h rx1 len1).1 rx2 len2).2 =
        [h.slave_addr, 0x01, 1, if be16 rx1 4 = 0xFF00 then 1 else 0] ++
          [Modbus_CRC16 false
              [h.slave_addr, 0x01, 1, if be16 rx1 4 = 0xFF00 then 1 else 0] &&& 0xFF,
           (Modbus_CRC16 false
              [h.slave_addr, 0x01, 1, if be16 rx1 4 = 0xFF00 then 1 else 0] >>> 8) &&& 0xFF]) := by
  constructor
  · intro h rx1 len1 rx2 len2 hv1 hf1 hnull hcnt haddr hcb hsize hv2 hf2 haddr2 hqty2
    have hp1 : Modbus_Process h rx1 len1 =
        ({ h with data_map := { h.data_map with holding_regs :=
            fun j => if (j = be16 rx1 2) then be16 rx1 4 else h.data_map.holding_regs j } },
         Modbus_SendResponse h (echoHead h rx1)) := by
      rw [modbusProcess_of_valid h rx1 len1 hv1,
          dispatch_eq_writeSingleReg h rx1 len1 hf1, hf1]
      unfold processWriteSingleReg
      dsimp only
      rw [if_neg (by simp [hnull, hcnt]), if_neg (by omega), if_neg (by simp [hcb])]
    rw [hp1] at hv2 ⊢
    rw [modbusProcess_of_valid _ rx2 len2 hv2,
        dispatch_eq_readHolding _ rx2 len2 hf2, hf2]
    unfold processReadHolding
    dsimp only
    rw [haddr2, hqty2]
    rw [if_neg (by simp [hnull, hcnt]), if_neg (by norm_num), if_neg (by omega)]
    have hval : holdingAt
        { h.data_map with holding_regs :=
            fun j => if j = be16 rx1 2 then be16 rx1 4 else h.data_map.holding_regs j }
        (be16 rx1 2) = be16 rx1 4 := by
      unfold holdingAt
      dsimp only
      rw [if_pos rfl, Nat.mod_eq_of_lt (be16_lt rx1 4)]
    rw [regPayload_one, hval]
    constructor
    · rw [sendResponse_eq _ _ (by dsimp only; simp; omega), modbusCRC16_eq_shift]
      rfl
    · exact hilo_or_reassemble (be16 rx1 4) (be16_lt rx1 4)
  · intro h rx1 len1 rx2 len2 hv1 hf1 hnull hcnt haddr hcb hsize hval01 hv2 hf2 haddr2 hqty2
    have hp1 : Modbus_Process h rx1 len1 =
        ({ h with data_map := { h.data_map with coils :=
            if (be16 rx1 4 = 0xFF00) then setBit h.data_map.coils (be16 rx1 2)
            else if (be16 rx1 4 = 0x0000) then clearBit h.data_map.coils (be16 rx1 2)
            else h.data_map.coils } },
         Modbus_SendResponse h (echoHead h rx1)) := by
      rw [modbusProcess_of_valid h rx1 len1 hv1,
          dispatch_eq_writeSingleCoil h rx1 len1 hf1, hf1]
      unfold processWriteSingleCoil
      dsimp only
      rw [if_neg (by simp [hnull, hcnt]), if_neg (by omega), if_neg (by simp [hcb])]
    rw [hp1] at hv2 ⊢
    rw [modbusProcess_of_valid _ rx2 len2 hv2,
        dispatch_eq_readCoils _ rx2 len2 hf2, hf2]
    unfold processReadCoils
    dsimp only
    rw [haddr2, hqty2]
    rw [if_neg (by simp [hnull, hcnt]), if_neg (by norm_num), if_neg (by omega)]
    rw [show (1 + 7) / 8 = 1 from rfl, packBits_one]
    rcases hval01 with hv01 | hv01 <;> rw [hv01]
    · rw [if_pos rfl]
      rw [if_pos (show bitGet (setBit h.data_map.coils (be16 rx1 2)) (be16 rx1 2 + 0) = true
            from bitGet_setBit_self _ _)]
      rw [sendResponse_eq _ _ (by dsimp only; simp; omega), modbusCRC16_eq_shift]
      rfl
    · rw [if_neg (show ¬ ((0 : Nat) = 65280) by norm_num), if_pos rfl]
      rw [if_neg (show ¬ (bitGet (clearBit h.data_map.coils (be16 rx1 2)) (be16 rx1 2 + 0) = true) by
            rw [Nat.add_zero, bitGet_clearBit_self]
            exact Bool.false_ne_true)]
      rw [if_neg (show ¬ ((0 : Nat) = 65280) by norm_num)]
      rw [sendResponse_eq _ _ (by dsimp only; simp; omega), modbusCRC16_eq_shift]
      rfl

/-- C7 witness frames: write register 5 := 0x1234, read it back; write coil
2 on, read it back. -/
def c7rx1 : Nat → Nat := ofList [0x01, 0x06, 0x00, 0x05, 0x12, 0x34, 0x94, 0xBC]

def c7rx2 : Nat → Nat := ofList [0x01, 0x03, 0x00, 0x05, 0x00, 0x01, 0x94, 0x0B]

def c7crx1 : Nat → Nat := ofList [0x01, 0x05, 0x00, 0x02, 0xFF, 0x00, 0x2D, 0xFA]

def c7crx2 : Nat → Nat := ofList [0x01, 0x01, 0x00, 0x02, 0x00, 0x01, 0x5C, 0x0A]

set_option maxRecDepth 800000 in
theorem C7_witness :
    ((Modbus_Process (Modbus_Process wHandle c7rx1 8).1 c7rx2 8).2 =
      [wHandle.slave_addr, 0x03, 2, (be16 c7rx1 4 >>> 8) &&& 0xFF, be16 c7rx1 4 &&& 0xFF] ++
        [Modbus_CRC16 false
            [wHandle.slave_addr, 0x03, 2, (be16 c7rx1 4 >>> 8) &&& 0xFF, be16 c7rx1 4 &&& 0xFF] &&& 0xFF,
         (Modbus_CRC16 false
            [wHandle.slave_addr, 0x03, 2, (be16 c7rx1 4 >>> 8) &&& 0xFF, be16 c7rx1 4 &&& 0xFF] >>> 8) &&& 0xFF] ∧
      ((be16 c7rx1 4 >>> 8) &&& 0xFF) <<< 8 ||| (be16 c7rx1 4 &&& 0xFF) = be16 c7rx1 4) ∧
    (Modbus_Process (Modbus_Process wHandle c7crx1 8).1 c7crx2 8).2 =
      [wHandle.slave_addr, 0x01, 1, if be16 c7crx1 4 = 0xFF00 then 1 else 0] ++
        [Modbus_CRC16 false
            [wHandle.slave_addr, 0x01, 1, if be16 c7crx1 4 = 0xFF00 then 1 else 0] &&& 0xFF,
         (Modbus_CRC16 false
            [wHandle.slave_addr, 0x01, 1, if be16 c7crx1 4 = 0xFF00 then 1 else 0] >>> 8) &&& 0xFF] :=
  ⟨C7_write_read_roundtrip.1 wHandle c7rx1 8 c7rx2 8 (by decide) (by decide) (by decide)
      (by decide) (by decide) (by decide) (by decide) (by decide) (by decide) (by decide)
      (by decide),
   C7_write_read_roundtrip.2 wHandle c7crx1 8 c7crx2 8 (by decide) (by decide) (by decide)
      (by decide) (by decide) (by decide) (by decide) (by decide) (by decide) (by decide)
      (by decide) (by decide)⟩
